import Mathlib

/-!
Verification development for the sentineleof orbit-selection core.

Times and durations are modelled as exact rational numbers of seconds
(Python `datetime` / `timedelta` arithmetic is exact at microsecond
resolution; all constants used here are exact rationals).

`SentinelOrbit` is the parsed orbit record.  Its fields are the
attributes read by `eof/_select_orbit.py` and `eof/asf_client.py`.
The comparison semantics (`sorted`, `==`) of `SentinelOrbit` live in
`eof/products.py`, which is not part of the sources at hand; they are
modelled from the spec: ordering by `(validity_start, validity_stop)`
and deduplication equality on exactly `(validity_start, validity_stop)`
with `creation_time` excluded.
-/

/-- Orbit record, as consumed by the selector: validity window
`[start_time, stop_time]`, publication time `created_time`, plus the
`mission` and `filename` attributes used by the ASF client. -/
structure SentinelOrbit where
  filename : String
  mission : String
  start_time : ℚ
  stop_time : ℚ
  created_time : ℚ
deriving DecidableEq, Repr

/-- Modelled from the spec: the `OrbitRecord` ordering relation used by
Python `sorted` in `valid_orbits` — compare by
`(validity_start, validity_stop)` lexicographically (non-strict). -/
def wle (a b : SentinelOrbit) : Prop :=
  a.start_time < b.start_time ∨
    (a.start_time = b.start_time ∧ a.stop_time ≤ b.stop_time)

instance : DecidableRel wle := fun a b => by
  unfold wle; infer_instance

instance : IsTotal SentinelOrbit wle where
  total a b := by
    unfold wle
    rcases lt_trichotomy a.start_time b.start_time with h | h | h
    · exact Or.inl (Or.inl h)
    · rcases le_total a.stop_time b.stop_time with h2 | h2
      · exact Or.inl (Or.inr ⟨h, h2⟩)
      · exact Or.inr (Or.inr ⟨h.symm, h2⟩)
    · exact Or.inr (Or.inl h)

instance : IsTrans SentinelOrbit wle where
  trans a b c hab hbc := by
    unfold wle at *
    rcases hab with h1 | ⟨h1, h1'⟩ <;> rcases hbc with h2 | ⟨h2, h2'⟩
    · exact Or.inl (h1.trans h2)
    · exact Or.inl (h2 ▸ h1)
    · exact Or.inl (h1 ▸ h2)
    · exact Or.inr ⟨h1.trans h2, h1'.trans h2'⟩

/-- Strict version of `wle`: the validity window of `a` is strictly
below that of `b` in the lexicographic order. -/
def wlt (a b : SentinelOrbit) : Prop :=
  a.start_time < b.start_time ∨
    (a.start_time = b.start_time ∧ a.stop_time < b.stop_time)

/-- Modelled from the spec: `SentinelOrbit` equality as used by the
dedup loop (`candidate == last`, "compare on everything but
created_time"): the two records have the same validity window. -/
def sameWindow (a b : SentinelOrbit) : Prop :=
  a.start_time = b.start_time ∧ a.stop_time = b.stop_time

instance : ∀ a b, Decidable (sameWindow a b) := fun a b => by
  unfold sameWindow; infer_instance

/-- Orbital period of Sentinel-1 in seconds (`T_ORBIT` in
`eof/_select_orbit.py`). -/
def T_ORBIT : ℚ := 12 * 86400 / 175

/-- Coverage filter of `valid_orbits`:
`item.start_time <= t0 - margin0 and item.stop_time >= t1 + margin1`. -/
def validFilterB (t0 t1 m0 m1 : ℚ) (item : SentinelOrbit) : Bool :=
  decide (item.start_time ≤ t0 - m0) && decide (item.stop_time ≥ t1 + m1)

/-- Deduplication loop of `valid_orbits`: the Python `for` loop over the
sorted candidates carrying the `last` slot, keeping for each run of
`==`-equal records the one with the highest `created_time`. -/
def collapse : Option SentinelOrbit → List SentinelOrbit → List SentinelOrbit
  | none, [] => []
  | some last, [] => [last]
  | none, c :: rest => collapse (some c) rest
  | some last, c :: rest =>
      if sameWindow c last then
        collapse (some (if last.created_time > c.created_time then last else c)) rest
      else
        last :: collapse (some c) rest

/-- Embeds `valid_orbits` from `eof/_select_orbit.py`: default the
margins (`is not None` semantics), filter on full coverage, sort, raise
`ValidityError` when nothing survives, then collapse duplicate
windows. -/
def valid_orbits (t0 t1 : ℚ) (data : List SentinelOrbit)
    (margin0 margin1 : Option ℚ) : Except String (List SentinelOrbit) :=
  let m0 := margin0.getD (T_ORBIT + 60)
  let m1 := margin1.getD 300
  let candidates := List.insertionSort wle (data.filter (validFilterB t0 t1 m0 m1))
  if candidates.isEmpty then
    Except.error "none of the input products completely covers the requested time interval"
  else
    Except.ok (collapse none candidates)

/-- Python truthiness defaulting `margin or default` used by
`last_valid_orbit`: a `None` or zero timedelta is replaced by the
default. -/
def pyOrQ (m : Option ℚ) (d : ℚ) : ℚ :=
  match m with
  | none => d
  | some x => if x = 0 then d else x

/-- Descending comparison on `created_time`, as used by
`candidates.sort(key=attrgetter("created_time"), reverse=True)`. -/
def createdGE (a b : SentinelOrbit) : Prop :=
  b.created_time ≤ a.created_time

instance : DecidableRel createdGE := fun a b => by
  unfold createdGE; infer_instance

instance : IsTotal SentinelOrbit createdGE where
  total a b := by unfold createdGE; exact le_total b.created_time a.created_time

instance : IsTrans SentinelOrbit createdGE where
  trans a b c hab hbc := by unfold createdGE at *; exact hbc.trans hab

/-- Embeds `last_valid_orbit` from `eof/_select_orbit.py`: margins are
defaulted with Python `or` (so a zero timedelta is replaced by the
default), candidates are computed by `valid_orbits`, sorted descending
by `created_time`, and the first filename is returned. -/
def last_valid_orbit (t0 t1 : ℚ) (data : List SentinelOrbit)
    (margin0 margin1 : Option ℚ) : Except String String :=
  let m0 := pyOrQ margin0 (T_ORBIT + 60)
  let m1 := pyOrQ margin1 300
  match valid_orbits t0 t1 data (some m0) (some m1) with
  | Except.error e => Except.error e
  | Except.ok candidates =>
      match List.insertionSort createdGE candidates with
      | [] => Except.error "IndexError"
      | best :: _ => Except.ok best.filename

/-- Orbit product kind (`OrbitType` enum in `eof/client.py`). -/
inductive OrbitType
  | precise
  | restituted
deriving DecidableEq, Repr

/-- Front margin `Client.T0` from `eof/client.py`:
`timedelta(seconds=T_ORBIT + 60)`. -/
def Client_T0 : ℚ := T_ORBIT + 60

/-- Margin `Client.T1` from `eof/client.py`: `timedelta(seconds=60)`. -/
def Client_T1 : ℚ := 60

/-- Listing URLs of `ASFClient.urls`, keyed by orbit type. -/
def urlOf : OrbitType → String
  | OrbitType.precise => "https://s1qc.asf.alaska.edu/aux_poeorb/"
  | OrbitType.restituted => "https://s1qc.asf.alaska.edu/aux_resorb/"

/-- Front margin chosen by `ASFClient.get_download_urls`:
`Client.T0` for precise orbits, `Client.T1` for restituted ones. -/
def margin0Of : OrbitType → ℚ
  | OrbitType.precise => Client_T0
  | OrbitType.restituted => Client_T1

/-- Indexing `mission_to_eof_list[mission]` in
`ASFClient.get_download_urls`: the dict holds exactly the keys `"S1A"`
and `"S1B"` (each mapped to the mission-filtered catalog); any other
mission raises a `KeyError`. -/
def missionLookup (eof_list : List SentinelOrbit) (mission : String) :
    Except String (List SentinelOrbit) :=
  if mission = "S1A" ∨ mission = "S1B" then
    Except.ok (eof_list.filter (fun e => decide (e.mission = mission)))
  else
    Except.error "KeyError"

/-- One pass of the request loop in `ASFClient.get_download_urls`: for
each `(dt, mission)` request, in order, try
`last_valid_orbit(dt, dt, mission_to_eof_list[mission], margin0=m0)`
(no `margin1` is passed), collecting the URLs of resolved requests and
the remaining `(dt, mission)` pairs whose selection raised
`ValidityError`. -/
def onePass (catalog : List SentinelOrbit) (base : String) (m0 : ℚ) :
    List (ℚ × String) → Except String (List String × List (ℚ × String))
  | [] => Except.ok ([], [])
  | (dt, mission) :: rest =>
    match missionLookup catalog mission with
    | Except.error e => Except.error e
    | Except.ok mlist =>
      match onePass catalog base m0 rest with
      | Except.error e => Except.error e
      | Except.ok (urls, rem) =>
        match last_valid_orbit dt dt mlist (some m0) none with
        | Except.ok f => Except.ok ((base ++ f) :: urls, rem)
        | Except.error _ => Except.ok (urls, (dt, mission) :: rem)

/-- Rank used to justify the precise-to-restituted recursion of
`get_download_urls`. -/
def otypeRank : OrbitType → Nat
  | OrbitType.precise => 1
  | OrbitType.restituted => 0

/-- Embeds `ASFClient.get_download_urls`.  The catalog per orbit type is
abstracted as a given function (network fetching and on-disk caching of
`get_full_eof_list` are external); `max(orbit_dts)` raises a
`ValueError` on an empty batch, and for a precise pass the requests
left unresolved by coverage errors are retried once against the
restituted catalog; a restituted pass only logs its leftovers. -/
def get_download_urls (catalogs : OrbitType → List SentinelOrbit)
    (requests : List (ℚ × String)) (otype : OrbitType) :
    Except String (List String) :=
  if requests.isEmpty then
    Except.error "ValueError: max() arg is an empty sequence"
  else
    match onePass (catalogs otype) (urlOf otype) (margin0Of otype) requests with
    | Except.error e => Except.error e
    | Except.ok (urls, remaining) =>
      if remaining.isEmpty then Except.ok urls
      else
        match otype with
        | OrbitType.restituted => Except.ok urls
        | OrbitType.precise =>
          match get_download_urls catalogs remaining OrbitType.restituted with
          | Except.error e => Except.error e
          | Except.ok urls2 => Except.ok (urls ++ urls2)
termination_by otypeRank otype
decreasing_by simp [otypeRank]

/-- Maximum `start_time` of a non-empty record list
(`max(e.start_time for e in eof_list)` in `get_full_eof_list`; the
empty case, where Python raises `ValueError`, is handled by the
caller). -/
def maxStart : List SentinelOrbit → ℚ
  | [] => 0
  | x :: xs => xs.foldl (fun acc e => max acc e.start_time) x.start_time

/-- Staleness condition of `ASFClient.get_full_eof_list`:
`not max_dt or (max_saved < max_dt)` — the cached listing is discarded
when no requested time is given or when its newest `start_time`
predates the requested time. -/
def needs_refresh (cached_max : ℚ) (max_dt : Option ℚ) : Bool :=
  match max_dt with
  | none => true
  | some d => decide (cached_max < d)

/-- Embeds `ASFClient.get_full_eof_list`.  The in-memory memo
(`eof_lists[orbit_type]`), the parsed on-disk cache file, and the
result a full network fetch would produce are passed explicitly; the
function returns the memoized list if present, otherwise the cached
list when it is fresh enough, otherwise the freshly fetched list
(after clearing the cache).  `max(...)` over an empty cached list
raises `ValueError`. -/
def get_full_eof_list (memo : Option (List SentinelOrbit))
    (cached : Option (List SentinelOrbit))
    (fetched : List SentinelOrbit) (max_dt : Option ℚ) :
    Except String (List SentinelOrbit) :=
  match memo with
  | some l => Except.ok l
  | none =>
    match cached with
    | some l =>
      if l.isEmpty then
        Except.error "ValueError: max() arg is an empty sequence"
      else if needs_refresh (maxStart l) max_dt then
        Except.ok fetched
      else
        Except.ok l
    | none => Except.ok fetched

/-- Specification of one selection attempt of the batch loop: the call
`last_valid_orbit(dt, dt, mission_to_eof_list[mission], margin0=m0)`
made by `ASFClient.get_download_urls` for the request `rq`. -/
def resolveOne (catalog : List SentinelOrbit) (m0 : ℚ) (rq : ℚ × String) :
    Except String String :=
  last_valid_orbit rq.1 rq.1 (catalog.filter (fun e => decide (e.mission = rq.2)))
    (some m0) none

/-- URLs produced by one pass of the batch loop, in request order. -/
def passUrls (catalog : List SentinelOrbit) (base : String) (m0 : ℚ)
    (reqs : List (ℚ × String)) : List String :=
  reqs.filterMap (fun rq =>
    match resolveOne catalog m0 rq with
    | Except.ok f => some (base ++ f)
    | Except.error _ => none)

/-- Requests a pass of the batch loop leaves unresolved (those whose
selection raised `ValidityError`), in request order. -/
def passFailed (catalog : List SentinelOrbit) (m0 : ℚ)
    (reqs : List (ℚ × String)) : List (ℚ × String) :=
  reqs.filter (fun rq =>
    match resolveOne catalog m0 rq with
    | Except.ok _ => false
    | Except.error _ => true)

/-- Calendar date-time as produced by
`datetime.strptime(s, "%Y%m%dT%H%M%S")` in `parsers.py`. -/
structure DateTimeS where
  year : Nat
  month : Nat
  day : Nat
  hour : Nat
  minute : Nat
  second : Nat
deriving DecidableEq, Repr

/-- Character class `\w` (also `[\w\d]` and `[\w_]`) of
`Sentinel.FILE_REGEX`, restricted to ASCII as the filenames are. -/
def isWordChar (c : Char) : Bool :=
  c.isAlphanum || c = '_'

/-- Consume exactly `n` characters all satisfying `p` (a fixed-width
character-class group of `Sentinel.FILE_REGEX`). -/
def takeClass (p : Char → Bool) : Nat → List Char → Option (List Char × List Char)
  | 0, cs => some ([], cs)
  | _ + 1, [] => none
  | n + 1, c :: cs =>
    if p c then (takeClass p n cs).map (fun g => (c :: g.1, g.2)) else none

/-- Consume one literal character of `Sentinel.FILE_REGEX`. -/
def expectChar (c : Char) : List Char → Option (List Char)
  | [] => none
  | d :: cs => if d = c then some cs else none

/-- Alternation group `(S1A|S1B)` of `Sentinel.FILE_REGEX`. -/
def takeMission : List Char → Option (String × List Char)
  | 'S' :: '1' :: 'A' :: rest => some ("S1A", rest)
  | 'S' :: '1' :: 'B' :: rest => some ("S1B", rest)
  | _ => none

/-- The twelve capture groups of `Sentinel.FILE_REGEX`, in order
(mission, beam, product type, resolution class, product level, product
class, polarization, start datetime, stop datetime, orbit number,
data-take identifier, product unique id). -/
structure SentinelParts where
  mission : String
  beam : String
  ptype : String
  resolution : String
  level : String
  pclass : String
  polarization : String
  startStr : String
  stopStr : String
  orbitStr : String
  datatake : String
  uid : String
deriving DecidableEq, Repr

/-- One token of the fixed-width regex `Sentinel.FILE_REGEX`: either a
literal character or a character-class group of a fixed length. -/
inductive RTok
  | lit (c : Char)
  | grp (p : Char → Bool) (n : Nat)

/-- Tail of `Sentinel.FILE_REGEX` after the `(S1A|S1B)` alternation:
`_([\w\d]\x7b2\x7d)_([\w_]\x7b3\x7d)([FHM_])_(\d)([SA])([SDHV]\x7b2\x7d)_([T\d]\x7b15\x7d)_([T\d]\x7b15\x7d)_(\d\x7b6\x7d)_([\d\w]\x7b6\x7d)_([\d\w]\x7b4\x7d)`,
token by token. -/
def filePattern : List RTok :=
  [RTok.lit '_', RTok.grp isWordChar 2,
   RTok.lit '_', RTok.grp isWordChar 3,
   RTok.grp (fun c => c = 'F' || c = 'H' || c = 'M' || c = '_') 1,
   RTok.lit '_', RTok.grp Char.isDigit 1,
   RTok.grp (fun c => c = 'S' || c = 'A') 1,
   RTok.grp (fun c => c = 'S' || c = 'D' || c = 'H' || c = 'V') 2,
   RTok.lit '_', RTok.grp (fun c => c = 'T' || c.isDigit) 15,
   RTok.lit '_', RTok.grp (fun c => c = 'T' || c.isDigit) 15,
   RTok.lit '_', RTok.grp Char.isDigit 6,
   RTok.lit '_', RTok.grp isWordChar 6,
   RTok.lit '_', RTok.grp isWordChar 4]

/-- Run a token sequence against the input, collecting the capture
groups in order. -/
def runToks : List RTok → List Char → Option (List String)
  | [], _ => some []
  | RTok.lit c :: ts, cs =>
    (expectChar c cs).bind fun cs2 => runToks ts cs2
  | RTok.grp p n :: ts, cs =>
    (takeClass p n cs).bind fun g =>
      (runToks ts g.2).map fun gs => String.mk g.1 :: gs

/-- Match `Sentinel.FILE_REGEX` at the current position: the `(S1A|S1B)`
alternation followed by the eleven remaining capture groups of
`filePattern`. -/
def matchAt (cs0 : List Char) : Option SentinelParts :=
  (takeMission cs0).bind fun g1 =>
    match runToks filePattern g1.2 with
    | some [beam, ptype, res, level, pclass, pol, startS, stopS, orbitS, dtake, uid] =>
      some ⟨g1.1, beam, ptype, res, level, pclass, pol, startS, stopS, orbitS, dtake, uid⟩
    | _ => none

/-- Leftmost search of `re.search(FILE_REGEX, filename)`: try to match
at each successive start position. -/
def regexSearch : List Char → Option SentinelParts
  | [] => none
  | c :: rest =>
    match matchAt (c :: rest) with
    | some p => some p
    | none => regexSearch rest

/-- Embeds `Sentinel.full_parse` from `parsers.py`: run the regex
search over the filename, failing (`ValueError`) when it does not
match. -/
def Sentinel_full_parse (filename : String) : Option SentinelParts :=
  regexSearch filename.data

/-- Numeric value of a digit list, failing on a non-digit. -/
def parseNatDigits (cs : List Char) : Option Nat :=
  if cs.all Char.isDigit then
    some (cs.foldl (fun a c => 10 * a + (c.toNat - '0'.toNat)) 0)
  else
    none

/-- Embeds `datetime.strptime(s, "%Y%m%dT%H%M%S")` as used by
`Sentinel.start_time` / `Sentinel.stop_time`: four year digits, two
month digits, two day digits, a literal `T`, then hours, minutes and
seconds, with the calendar-field range checks `strptime` performs. -/
def strptimeYmdTHMS (s : String) : Option DateTimeS :=
  match s.data with
  | [y1, y2, y3, y4, mo1, mo2, d1, d2, t, h1, h2, mi1, mi2, s1, s2] =>
    if t = 'T' then do
      let y ← parseNatDigits [y1, y2, y3, y4]
      let mo ← parseNatDigits [mo1, mo2]
      let d ← parseNatDigits [d1, d2]
      let h ← parseNatDigits [h1, h2]
      let mi ← parseNatDigits [mi1, mi2]
      let sec ← parseNatDigits [s1, s2]
      if 1 ≤ mo ∧ mo ≤ 12 ∧ 1 ≤ d ∧ d ≤ 31 ∧ h ≤ 23 ∧ mi ≤ 59 ∧ sec ≤ 61 then
        pure ⟨y, mo, d, h, mi, sec⟩
      else
        none
    else
      none
  | _ => none

/-- Property `Sentinel.start_time`. -/
def Sentinel_start_time (p : SentinelParts) : Option DateTimeS :=
  strptimeYmdTHMS p.startStr

/-- Property `Sentinel.stop_time`. -/
def Sentinel_stop_time (p : SentinelParts) : Option DateTimeS :=
  strptimeYmdTHMS p.stopStr

/-- Property `Sentinel.absolute_orbit`: `int()` of the six-digit orbit
group, as a mathematical integer. -/
def Sentinel_absolute_orbit (p : SentinelParts) : Option ℤ :=
  (parseNatDigits p.orbitStr.data).map (fun n => (n : ℤ))

/-- Property `Sentinel.relative_orbit` from `parsers.py`: the
mission-specific modular formula (Python `%` on a positive modulus is
`Int.emod`), `None` for other missions. -/
def Sentinel_relative_orbit (p : SentinelParts) : Option ℤ :=
  if p.mission = "S1A" then
    (Sentinel_absolute_orbit p).map (fun a => (a - 73) % 175 + 1)
  else if p.mission = "S1B" then
    (Sentinel_absolute_orbit p).map (fun a => (a - 27) % 175 + 1)
  else
    none

theorem sameWindow_refl (a : SentinelOrbit) : sameWindow a a := ⟨rfl, rfl⟩

theorem sameWindow_symm {a b : SentinelOrbit} (h : sameWindow a b) : sameWindow b a :=
  ⟨h.1.symm, h.2.symm⟩

theorem sameWindow_trans {a b c : SentinelOrbit} (h1 : sameWindow a b)
    (h2 : sameWindow b c) : sameWindow a c :=
  ⟨h1.1.trans h2.1, h1.2.trans h2.2⟩

theorem wle_trans {a b c : SentinelOrbit} (h1 : wle a b) (h2 : wle b c) : wle a c :=
  IsTrans.trans a b c h1 h2

theorem wle_of_wlt {a b : SentinelOrbit} (h : wlt a b) : wle a b := by
  rcases h with h | ⟨h1, h2⟩
  · exact Or.inl h
  · exact Or.inr ⟨h1, le_of_lt h2⟩

theorem wlt_of_wle_not_same {a b : SentinelOrbit} (h : wle a b)
    (hn : ¬ sameWindow a b) : wlt a b := by
  rcases h with h | ⟨h1, h2⟩
  · exact Or.inl h
  · exact Or.inr ⟨h1, lt_of_le_of_ne h2 (fun he => hn ⟨h1, he⟩)⟩

theorem not_sameWindow_of_wlt {a b : SentinelOrbit} (h : wlt a b) :
    ¬ sameWindow a b := by
  rcases h with h | ⟨h1, h2⟩ <;> intro hs
  · exact absurd (hs.1 ▸ h) (lt_irrefl _)
  · exact absurd (hs.2 ▸ h2) (lt_irrefl _)

theorem wlt_of_wlt_of_wle {a b c : SentinelOrbit} (h1 : wlt a b) (h2 : wle b c) :
    wlt a c := by
  rcases h1 with h1 | ⟨h1, h1'⟩ <;> rcases h2 with h2 | ⟨h2, h2'⟩
  · exact Or.inl (h1.trans h2)
  · exact Or.inl (h2 ▸ h1)
  · exact Or.inl (h1 ▸ h2)
  · exact Or.inr ⟨h1.trans h2, lt_of_lt_of_le h1' h2'⟩

theorem wlt_of_wle_of_wlt {a b c : SentinelOrbit} (h1 : wle a b) (h2 : wlt b c) :
    wlt a c := by
  rcases h1 with h1 | ⟨h1, h1'⟩ <;> rcases h2 with h2 | ⟨h2, h2'⟩
  · exact Or.inl (h1.trans h2)
  · exact Or.inl (h2 ▸ h1)
  · exact Or.inl (h1 ▸ h2)
  · exact Or.inr ⟨h1.trans h2, lt_of_le_of_lt h1' h2'⟩

theorem mem_singleton_ite {x a c : SentinelOrbit} {P : Prop} [Decidable P]
    (h : x = if P then a else c) : x = a ∨ x = c := by
  by_cases hp : P
  · rw [if_pos hp] at h; exact Or.inl h
  · rw [if_neg hp] at h; exact Or.inr h

theorem collapse_subset :
    ∀ (l : List SentinelOrbit) (acc : Option SentinelOrbit) (x : SentinelOrbit),
      x ∈ collapse acc l → x ∈ acc.toList ++ l := by
  intro l
  induction l with
  | nil =>
    intro acc x hx
    cases acc with
    | none => simp [collapse] at hx
    | some a => simp [collapse] at hx; simp [hx]
  | cons c rest ih =>
    intro acc x hx
    cases acc with
    | none =>
      simp only [collapse] at hx
      simpa using ih (some c) x hx
    | some a =>
      simp only [collapse] at hx
      by_cases h : sameWindow c a
      · rw [if_pos h] at hx
        have hm := ih (some (if a.created_time > c.created_time then a else c)) x hx
        simp only [Option.toList_some, List.singleton_append, List.mem_cons] at hm
        rcases hm with hm | hm
        · rcases mem_singleton_ite hm with h1 | h1 <;> simp [h1]
        · simp [hm]
      · rw [if_neg h] at hx
        rcases List.mem_cons.mp hx with h1 | h1
        · simp [h1]
        · have hm := ih (some c) x h1
          simp only [Option.toList_some, List.singleton_append, List.mem_cons] at hm
          rcases hm with hm | hm <;> simp [hm]

theorem collapse_some_ne_nil :
    ∀ (l : List SentinelOrbit) (a : SentinelOrbit), collapse (some a) l ≠ [] := by
  intro l
  induction l with
  | nil => intro a; simp [collapse]
  | cons c rest ih =>
    intro a
    simp only [collapse]
    by_cases h : sameWindow c a
    · rw [if_pos h]; exact ih _
    · rw [if_neg h]; simp

theorem collapse_represents :
    ∀ (l : List SentinelOrbit) (acc : Option SentinelOrbit) (y : SentinelOrbit),
      y ∈ acc.toList ++ l → ∃ x ∈ collapse acc l, sameWindow y x := by
  intro l
  induction l with
  | nil =>
    intro acc y hy
    cases acc with
    | none => simp at hy
    | some a =>
      simp only [Option.toList_some, List.singleton_append, List.append_nil,
        List.mem_singleton] at hy
      exact ⟨a, by simp [collapse], hy ▸ sameWindow_refl y⟩
  | cons c rest ih =>
    intro acc y hy
    cases acc with
    | none =>
      simp only [Option.toList_none, List.nil_append] at hy
      simp only [collapse]
      exact ih (some c) y (by simpa using hy)
    | some a =>
      simp only [Option.toList_some, List.singleton_append, List.mem_cons] at hy
      simp only [collapse]
      by_cases h : sameWindow c a
      · rw [if_pos h]
        set m := if a.created_time > c.created_time then a else c with hm
        have hma : sameWindow m a := by
          rcases mem_singleton_ite hm.symm.symm with h1 | h1
          · exact h1 ▸ sameWindow_refl a
          · exact h1 ▸ h
        rcases hy with hy | hy | hy
        · obtain ⟨x, hx, hs⟩ := ih (some m) m (by simp)
          exact ⟨x, hx, sameWindow_trans (hy ▸ (sameWindow_symm hma)) hs⟩
        · obtain ⟨x, hx, hs⟩ := ih (some m) m (by simp)
          exact ⟨x, hx, sameWindow_trans (hy ▸ sameWindow_trans h (sameWindow_symm hma)) hs⟩
        · obtain ⟨x, hx, hs⟩ := ih (some m) y (by simp [hy])
          exact ⟨x, hx, hs⟩
      · rw [if_neg h]
        rcases hy with hy | hy | hy
        · exact ⟨a, by simp, hy ▸ sameWindow_refl y⟩
        · obtain ⟨x, hx, hs⟩ := ih (some c) y (by simp [hy])
          exact ⟨x, List.mem_cons_of_mem a hx, hs⟩
        · obtain ⟨x, hx, hs⟩ := ih (some c) y (by simp [hy])
          exact ⟨x, List.mem_cons_of_mem a hx, hs⟩

theorem collapse_pairwise :
    ∀ (l : List SentinelOrbit) (a : SentinelOrbit),
      List.Sorted wle l → (∀ c ∈ l, wle a c) →
      List.Pairwise wlt (collapse (some a) l) := by
  intro l
  induction l with
  | nil => intro a _ _; simp [collapse]
  | cons c rest ih =>
    intro a hs ha
    have hs' : List.Sorted wle rest := (List.sorted_cons.mp hs).2
    have hc : ∀ d ∈ rest, wle c d := (List.sorted_cons.mp hs).1
    simp only [collapse]
    by_cases h : sameWindow c a
    · rw [if_pos h]
      apply ih _ hs'
      intro d hd
      by_cases hcr : a.created_time > c.created_time
      · rw [if_pos hcr]
        exact wle_trans (ha c (by simp)) (hc d hd)
      · rw [if_neg hcr]
        exact hc d hd
    · rw [if_neg h]
      refine List.Pairwise.cons ?_ (ih c hs' hc)
      intro x hx
      have hxm := collapse_subset rest (some c) x hx
      have hac : wlt a c :=
        wlt_of_wle_not_same (ha c (by simp)) (fun hs2 => h (sameWindow_symm hs2))
      simp only [Option.toList_some, List.singleton_append, List.mem_cons] at hxm
      rcases hxm with hxm | hxm
      · exact hxm ▸ hac
      · exact wlt_of_wlt_of_wle hac (hc x hxm)

theorem collapse_max :
    ∀ (l : List SentinelOrbit) (a : SentinelOrbit),
      List.Sorted wle l → (∀ c ∈ l, wle a c) →
      ∀ x ∈ collapse (some a) l, ∀ y ∈ a :: l, sameWindow y x →
        y.created_time ≤ x.created_time := by
  intro l
  induction l with
  | nil =>
    intro a _ _ x hx y hy _
    simp [collapse] at hx
    simp at hy
    rw [hx, hy]
  | cons c rest ih =>
    intro a hs ha x hx y hy hsw
    have hs' : List.Sorted wle rest := (List.sorted_cons.mp hs).2
    have hc : ∀ d ∈ rest, wle c d := (List.sorted_cons.mp hs).1
    simp only [collapse] at hx
    by_cases h : sameWindow c a
    · rw [if_pos h] at hx
      set m := if a.created_time > c.created_time then a else c with hm
      have hmval : m = a ∨ m = c := mem_singleton_ite hm
      have hma : sameWindow m a := by
        rcases hmval with h1 | h1
        · exact h1 ▸ sameWindow_refl a
        · exact h1 ▸ h
      have hmax : a.created_time ≤ m.created_time ∧ c.created_time ≤ m.created_time := by
        by_cases hcr : a.created_time > c.created_time
        · rw [hm, if_pos hcr]
          exact ⟨le_refl _, le_of_lt hcr⟩
        · rw [hm, if_neg hcr]
          exact ⟨le_of_not_lt hcr, le_refl _⟩
      have hmrest : ∀ d ∈ rest, wle m d := by
        intro d hd
        rcases hmval with h1 | h1
        · rw [h1]; exact wle_trans (ha c (by simp)) (hc d hd)
        · rw [h1]; exact hc d hd
      rcases List.mem_cons.mp hy with hy | hy
      · have hmx : sameWindow m x :=
          sameWindow_trans hma (hy ▸ hsw)
        have := ih m hs' hmrest x hx m (by simp) hmx
        calc y.created_time = a.created_time := by rw [hy]
          _ ≤ m.created_time := hmax.1
          _ ≤ x.created_time := this
      rcases List.mem_cons.mp hy with hy | hy
      · have hmc : sameWindow m c := sameWindow_trans hma (sameWindow_symm h)
        have hmx : sameWindow m x := sameWindow_trans hmc (hy ▸ hsw)
        have := ih m hs' hmrest x hx m (by simp) hmx
        calc y.created_time = c.created_time := by rw [hy]
          _ ≤ m.created_time := hmax.2
          _ ≤ x.created_time := this
      · exact ih m hs' hmrest x hx y (List.mem_cons_of_mem m hy) hsw
    · rw [if_neg h] at hx
      have hac : wlt a c :=
        wlt_of_wle_not_same (ha c (by simp)) (fun hs2 => h (sameWindow_symm hs2))
      rcases List.mem_cons.mp hx with hx | hx
      · rcases List.mem_cons.mp hy with hy | hy
        · rw [hy, hx]
        rcases List.mem_cons.mp hy with hy | hy
        · rw [hx] at hsw
          rw [hy] at hsw
          exact absurd hsw h
        · have hwlt : wlt a y := wlt_of_wlt_of_wle hac (hc y hy)
          rw [hx] at hsw
          exact absurd (sameWindow_symm hsw) (not_sameWindow_of_wlt hwlt)
      · rcases List.mem_cons.mp hy with hy | hy
        · have hxm := collapse_subset rest (some c) x hx
          simp only [Option.toList_some, List.singleton_append, List.mem_cons] at hxm
          have hax : wlt a x := by
            rcases hxm with hxm | hxm
            · exact hxm ▸ hac
            · exact wlt_of_wlt_of_wle hac (hc x hxm)
          rw [hy] at hsw
          exact absurd hsw (not_sameWindow_of_wlt hax)
        · exact ih c hs' hc x hx y hy hsw

theorem collapse_none_subset {l : List SentinelOrbit} {x : SentinelOrbit}
    (hx : x ∈ collapse none l) : x ∈ l := by
  simpa using collapse_subset l none x hx

theorem collapse_none_represents {l : List SentinelOrbit} {y : SentinelOrbit}
    (hy : y ∈ l) : ∃ x ∈ collapse none l, sameWindow y x :=
  collapse_represents l none y (by simpa using hy)

theorem collapse_none_ne_nil {l : List SentinelOrbit} (hl : l ≠ []) :
    collapse none l ≠ [] := by
  cases l with
  | nil => exact absurd rfl hl
  | cons c rest =>
    simp only [collapse]
    exact collapse_some_ne_nil rest c

theorem collapse_none_pairwise {l : List SentinelOrbit} (hs : List.Sorted wle l) :
    List.Pairwise wlt (collapse none l) := by
  cases l with
  | nil => simp [collapse]
  | cons c rest =>
    simp only [collapse]
    exact collapse_pairwise rest c (List.sorted_cons.mp hs).2 (List.sorted_cons.mp hs).1

theorem collapse_none_max {l : List SentinelOrbit} (hs : List.Sorted wle l) :
    ∀ x ∈ collapse none l, ∀ y ∈ l, sameWindow y x →
      y.created_time ≤ x.created_time := by
  cases l with
  | nil => simp [collapse]
  | cons c rest =>
    intro x hx y hy hsw
    simp only [collapse] at hx
    exact collapse_max rest c (List.sorted_cons.mp hs).2 (List.sorted_cons.mp hs).1
      x hx y hy hsw

theorem insertionSort_eq_nil_iff {r : SentinelOrbit → SentinelOrbit → Prop}
    [DecidableRel r] {l : List SentinelOrbit} :
    List.insertionSort r l = [] ↔ l = [] := by
  constructor
  · intro h
    have := (List.perm_insertionSort r l).symm
    rw [h] at this
    exact this.eq_nil
  · intro h
    rw [h]
    rfl

theorem valid_orbits_ok {t0 t1 : ℚ} {data res : List SentinelOrbit}
    {margin0 margin1 : Option ℚ}
    (h : valid_orbits t0 t1 data margin0 margin1 = Except.ok res) :
    data.filter (validFilterB t0 t1 (margin0.getD (T_ORBIT + 60)) (margin1.getD 300)) ≠ [] ∧
      res = collapse none (List.insertionSort wle
        (data.filter (validFilterB t0 t1 (margin0.getD (T_ORBIT + 60)) (margin1.getD 300)))) := by
  simp only [valid_orbits] at h
  by_cases he : (List.insertionSort wle (data.filter
      (validFilterB t0 t1 (margin0.getD (T_ORBIT + 60)) (margin1.getD 300)))).isEmpty
  · rw [if_pos he] at h
    exact absurd h (by simp)
  · rw [if_neg he] at h
    constructor
    · intro hnil
      rw [hnil] at he
      exact he (by rfl)
    · exact (Except.ok.injEq _ _).mp h |>.symm

theorem valid_orbits_error_iff {t0 t1 : ℚ} {data : List SentinelOrbit}
    {margin0 margin1 : Option ℚ} :
    (∃ e, valid_orbits t0 t1 data margin0 margin1 = Except.error e) ↔
      ∀ r ∈ data, ¬ (validFilterB t0 t1 (margin0.getD (T_ORBIT + 60))
        (margin1.getD 300) r = true) := by
  simp only [valid_orbits]
  by_cases he : (List.insertionSort wle (data.filter
      (validFilterB t0 t1 (margin0.getD (T_ORBIT + 60)) (margin1.getD 300)))).isEmpty
  · rw [if_pos he]
    simp only [List.isEmpty_iff, insertionSort_eq_nil_iff] at he
    constructor
    · intro _
      intro r hr hf
      have : r ∈ data.filter (validFilterB t0 t1 (margin0.getD (T_ORBIT + 60))
          (margin1.getD 300)) := List.mem_filter.mpr ⟨hr, hf⟩
      rw [he] at this
      exact absurd this (List.not_mem_nil r)
    · intro _
      exact ⟨_, rfl⟩
  · rw [if_neg he]
    constructor
    · intro ⟨e, hcon⟩
      exact absurd hcon (by simp)
    · intro hall
      exfalso
      apply he
      simp only [List.isEmpty_iff, insertionSort_eq_nil_iff]
      apply List.eq_nil_iff_forall_not_mem.mpr
      intro r hr
      have := List.mem_filter.mp hr
      exact hall r this.1 this.2

/-- Claim C1: every record returned by `valid_orbits` (select_candidates)
satisfies `start_time <= t0 - m0` and `stop_time >= t1 + m1`; a record
only partially overlapping the widened interval is never returned. -/
theorem claim_C1_coverage (t0 t1 m0 m1 : ℚ) (data res : List SentinelOrbit)
    (h : valid_orbits t0 t1 data (some m0) (some m1) = Except.ok res) :
    ∀ r ∈ res, r.start_time ≤ t0 - m0 ∧ r.stop_time ≥ t1 + m1 := by
  obtain ⟨hne, hres⟩ := valid_orbits_ok h
  simp only [Option.getD_some] at hres
  intro r hr
  rw [hres] at hr
  have h1 := collapse_none_subset hr
  have h2 : r ∈ data.filter (validFilterB t0 t1 m0 m1) :=
    (List.perm_insertionSort wle _).mem_iff.mp h1
  have h3 := List.of_mem_filter h2
  simp only [validFilterB, Bool.and_eq_true, decide_eq_true_eq] at h3
  exact h3

/-- Witness for C1 at a concrete input. -/
theorem claim_C1_coverage_witness :
    valid_orbits 0 0 [⟨"X", "S1A", -10, 10, 0⟩] (some 1) (some 1) =
      Except.ok [⟨"X", "S1A", -10, 10, 0⟩] ∧
    ((⟨"X", "S1A", -10, 10, 0⟩ : SentinelOrbit).start_time ≤ 0 - 1 ∧
      (⟨"X", "S1A", -10, 10, 0⟩ : SentinelOrbit).stop_time ≥ 0 + 1) :=
  ⟨by norm_num [valid_orbits, validFilterB, List.filter, List.insertionSort, List.orderedInsert, collapse, wle, sameWindow],
    claim_C1_coverage 0 0 1 1 [⟨"X", "S1A", -10, 10, 0⟩] [⟨"X", "S1A", -10, 10, 0⟩]
      (by norm_num [valid_orbits, validFilterB, List.filter, List.insertionSort, List.orderedInsert, collapse, wle, sameWindow]) ⟨"X", "S1A", -10, 10, 0⟩ (by simp)⟩

/-- Claim C7: whenever `valid_orbits` (select_candidates) returns, the
returned list is non-empty, sorted ascending by
`(validity_start, validity_stop)`, and contains no two records sharing
the same window. -/
theorem claim_C7_output_shape (t0 t1 : ℚ) (data res : List SentinelOrbit)
    (margin0 margin1 : Option ℚ)
    (h : valid_orbits t0 t1 data margin0 margin1 = Except.ok res) :
    res ≠ [] ∧ List.Sorted wle res ∧
      List.Pairwise (fun a b => ¬ sameWindow a b) res := by
  obtain ⟨hne, hres⟩ := valid_orbits_ok h
  have hsorted : List.Sorted wle (List.insertionSort wle (data.filter
      (validFilterB t0 t1 (margin0.getD (T_ORBIT + 60)) (margin1.getD 300)))) :=
    List.sorted_insertionSort wle _
  have hpw := collapse_none_pairwise hsorted
  refine ⟨?_, ?_, ?_⟩
  · rw [hres]
    apply collapse_none_ne_nil
    exact fun hnil => hne (insertionSort_eq_nil_iff.mp hnil)
  · rw [hres]
    exact hpw.imp wle_of_wlt
  · rw [hres]
    exact hpw.imp (fun hab => not_sameWindow_of_wlt hab)

/-- Witness for C7 at a concrete input. -/
theorem claim_C7_output_shape_witness :
    valid_orbits 50 50 [⟨"D", "S1A", -5, 200, 0⟩, ⟨"A", "S1A", 0, 100, 1⟩]
      (some 1) (some 1) =
      Except.ok [⟨"D", "S1A", -5, 200, 0⟩, ⟨"A", "S1A", 0, 100, 1⟩] ∧
    ([⟨"D", "S1A", -5, 200, 0⟩, ⟨"A", "S1A", 0, 100, 1⟩] : List SentinelOrbit) ≠ [] :=
  ⟨by norm_num [valid_orbits, validFilterB, List.filter, List.insertionSort, List.orderedInsert, collapse, wle, sameWindow],
    (claim_C7_output_shape 50 50 [⟨"D", "S1A", -5, 200, 0⟩, ⟨"A", "S1A", 0, 100, 1⟩]
      [⟨"D", "S1A", -5, 200, 0⟩, ⟨"A", "S1A", 0, 100, 1⟩] (some 1) (some 1) (by norm_num [valid_orbits, validFilterB, List.filter, List.insertionSort, List.orderedInsert, collapse, wle, sameWindow])).1⟩

/-- Claim C2: on success, `valid_orbits` (select_candidates) returns
only surviving records, at least one record for every distinct validity
window that survives the coverage filter (never silently dropping a
window, also when three or more consecutive sorted records share a
window), each returned record carries the maximal `created_time` of its
window, and no window is represented twice. -/
theorem claim_C2_dedup (t0 t1 m0 m1 : ℚ) (data res : List SentinelOrbit)
    (h : valid_orbits t0 t1 data (some m0) (some m1) = Except.ok res) :
    (∀ x ∈ res, x ∈ data.filter (validFilterB t0 t1 m0 m1)) ∧
    (∀ y ∈ data.filter (validFilterB t0 t1 m0 m1), ∃ x ∈ res, sameWindow y x) ∧
    (∀ x ∈ res, ∀ y ∈ data.filter (validFilterB t0 t1 m0 m1), sameWindow y x →
      y.created_time ≤ x.created_time) ∧
    (∀ x ∈ res, ∀ x' ∈ res, sameWindow x x' → x = x') := by
  obtain ⟨hne, hres⟩ := valid_orbits_ok h
  simp only [Option.getD_some] at hres
  have hsorted : List.Sorted wle (List.insertionSort wle
      (data.filter (validFilterB t0 t1 m0 m1))) :=
    List.sorted_insertionSort wle _
  have hperm : List.Perm (List.insertionSort wle (data.filter (validFilterB t0 t1 m0 m1)))
      (data.filter (validFilterB t0 t1 m0 m1)) :=
    List.perm_insertionSort wle _
  refine ⟨?_, ?_, ?_, ?_⟩
  · intro x hx
    rw [hres] at hx
    exact hperm.mem_iff.mp (collapse_none_subset hx)
  · intro y hy
    obtain ⟨x, hx, hs⟩ := collapse_none_represents (hperm.mem_iff.mpr hy)
    exact ⟨x, hres ▸ hx, hs⟩
  · intro x hx y hy hsw
    rw [hres] at hx
    exact collapse_none_max hsorted x hx y (hperm.mem_iff.mpr hy) hsw
  · intro x hx x' hx' hsw
    rw [hres] at hx hx'
    have hpw2 : List.Pairwise (fun a b => ¬ sameWindow a b)
        (collapse none (List.insertionSort wle
          (data.filter (validFilterB t0 t1 m0 m1)))) :=
      (collapse_none_pairwise hsorted).imp (fun hab => not_sameWindow_of_wlt hab)
    by_contra hne2
    have hsymm : Symmetric (fun (a b : SentinelOrbit) => ¬ sameWindow a b) := by
      intro a b hab hs
      exact hab (sameWindow_symm hs)
    exact List.Pairwise.forall hsymm hpw2 hx hx' hne2 hsw

/-- Witness for C2: three records sharing one validity window collapse
to the single latest-created one. -/
theorem claim_C2_dedup_witness :
    valid_orbits 50 50 [⟨"A", "S1A", 0, 100, 1⟩, ⟨"B", "S1A", 0, 100, 3⟩,
      ⟨"C", "S1A", 0, 100, 2⟩] (some 1) (some 1) =
      Except.ok [⟨"B", "S1A", 0, 100, 3⟩] ∧
    (∃ x ∈ [(⟨"B", "S1A", 0, 100, 3⟩ : SentinelOrbit)],
      sameWindow ⟨"A", "S1A", 0, 100, 1⟩ x) :=
  ⟨by norm_num [valid_orbits, validFilterB, List.filter, List.insertionSort, List.orderedInsert, collapse, wle, sameWindow],
    (claim_C2_dedup 50 50 1 1
      [⟨"A", "S1A", 0, 100, 1⟩, ⟨"B", "S1A", 0, 100, 3⟩, ⟨"C", "S1A", 0, 100, 2⟩]
      [⟨"B", "S1A", 0, 100, 3⟩] (by norm_num [valid_orbits, validFilterB, List.filter, List.insertionSort, List.orderedInsert, collapse, wle, sameWindow])).2.1
      ⟨"A", "S1A", 0, 100, 1⟩
      (List.mem_filter.mpr ⟨by simp, by norm_num [validFilterB]⟩)⟩

theorem valid_orbits_eq_ok {t0 t1 : ℚ} {data : List SentinelOrbit}
    {margin0 margin1 : Option ℚ}
    (hne : data.filter (validFilterB t0 t1 (margin0.getD (T_ORBIT + 60))
      (margin1.getD 300)) ≠ []) :
    valid_orbits t0 t1 data margin0 margin1 =
      Except.ok (collapse none (List.insertionSort wle (data.filter
        (validFilterB t0 t1 (margin0.getD (T_ORBIT + 60)) (margin1.getD 300))))) := by
  simp only [valid_orbits]
  rw [if_neg]
  intro he
  rw [List.isEmpty_iff, insertionSort_eq_nil_iff] at he
  exact hne he

theorem valid_orbits_eq_error {t0 t1 : ℚ} {data : List SentinelOrbit}
    {margin0 margin1 : Option ℚ}
    (hnil : data.filter (validFilterB t0 t1 (margin0.getD (T_ORBIT + 60))
      (margin1.getD 300)) = []) :
    valid_orbits t0 t1 data margin0 margin1 =
      Except.error "none of the input products completely covers the requested time interval" := by
  simp only [valid_orbits]
  rw [if_pos]
  rw [List.isEmpty_iff, insertionSort_eq_nil_iff]
  exact hnil

theorem last_valid_orbit_ok_shape {t0 t1 : ℚ} {data : List SentinelOrbit}
    {margin0 margin1 : Option ℚ}
    (hne : ∃ r ∈ data, validFilterB t0 t1 (pyOrQ margin0 (T_ORBIT + 60))
      (pyOrQ margin1 300) r = true) :
    ∃ best ∈ data,
      last_valid_orbit t0 t1 data margin0 margin1 = Except.ok best.filename ∧
      validFilterB t0 t1 (pyOrQ margin0 (T_ORBIT + 60)) (pyOrQ margin1 300) best = true ∧
      ∀ s ∈ data, validFilterB t0 t1 (pyOrQ margin0 (T_ORBIT + 60))
        (pyOrQ margin1 300) s = true → s.created_time ≤ best.created_time := by
  obtain ⟨r, hr, hf⟩ := hne
  have hmem : r ∈ data.filter (validFilterB t0 t1 (pyOrQ margin0 (T_ORBIT + 60))
      (pyOrQ margin1 300)) := List.mem_filter.mpr ⟨hr, hf⟩
  have hfne : data.filter (validFilterB t0 t1 (pyOrQ margin0 (T_ORBIT + 60))
      (pyOrQ margin1 300)) ≠ [] := by
    intro hnil
    rw [hnil] at hmem
    exact absurd hmem (List.not_mem_nil r)
  have hok : valid_orbits t0 t1 data (some (pyOrQ margin0 (T_ORBIT + 60)))
      (some (pyOrQ margin1 300)) =
      Except.ok (collapse none (List.insertionSort wle (data.filter
        (validFilterB t0 t1 (pyOrQ margin0 (T_ORBIT + 60)) (pyOrQ margin1 300))))) := by
    apply valid_orbits_eq_ok
    simpa using hfne
  have hdedup_ne : collapse none (List.insertionSort wle (data.filter
      (validFilterB t0 t1 (pyOrQ margin0 (T_ORBIT + 60)) (pyOrQ margin1 300)))) ≠ [] := by
    apply collapse_none_ne_nil
    intro hnil
    exact hfne (insertionSort_eq_nil_iff.mp hnil)
  have hsort_ne : List.insertionSort createdGE (collapse none (List.insertionSort wle
      (data.filter (validFilterB t0 t1 (pyOrQ margin0 (T_ORBIT + 60))
        (pyOrQ margin1 300))))) ≠ [] := by
    intro hnil
    exact hdedup_ne (insertionSort_eq_nil_iff.mp hnil)
  obtain ⟨b, t, hbt⟩ := List.exists_cons_of_ne_nil hsort_ne
  have hlast : last_valid_orbit t0 t1 data margin0 margin1 = Except.ok b.filename := by
    simp only [last_valid_orbit, hok, hbt]
  have hbmem : b ∈ collapse none (List.insertionSort wle (data.filter
      (validFilterB t0 t1 (pyOrQ margin0 (T_ORBIT + 60)) (pyOrQ margin1 300)))) := by
    have : b ∈ List.insertionSort createdGE (collapse none (List.insertionSort wle
        (data.filter (validFilterB t0 t1 (pyOrQ margin0 (T_ORBIT + 60))
          (pyOrQ margin1 300))))) := by
      rw [hbt]
      exact List.mem_cons_self b t
    exact (List.perm_insertionSort createdGE _).mem_iff.mp this
  have hbfil : b ∈ data.filter (validFilterB t0 t1 (pyOrQ margin0 (T_ORBIT + 60))
      (pyOrQ margin1 300)) :=
    (List.perm_insertionSort wle _).mem_iff.mp (collapse_none_subset hbmem)
  have hbdata := List.mem_filter.mp hbfil
  refine ⟨b, hbdata.1, hlast, hbdata.2, ?_⟩
  intro s hs hsf
  have hsfil : s ∈ data.filter (validFilterB t0 t1 (pyOrQ margin0 (T_ORBIT + 60))
      (pyOrQ margin1 300)) := List.mem_filter.mpr ⟨hs, hsf⟩
  have hscand : s ∈ List.insertionSort wle (data.filter
      (validFilterB t0 t1 (pyOrQ margin0 (T_ORBIT + 60)) (pyOrQ margin1 300))) :=
    (List.perm_insertionSort wle _).mem_iff.mpr hsfil
  obtain ⟨x, hx, hsw⟩ := collapse_none_represents hscand
  have hsx : s.created_time ≤ x.created_time :=
    collapse_none_max (List.sorted_insertionSort wle _) x hx s hscand hsw
  have hxsorted : x ∈ List.insertionSort createdGE (collapse none (List.insertionSort wle
      (data.filter (validFilterB t0 t1 (pyOrQ margin0 (T_ORBIT + 60))
        (pyOrQ margin1 300))))) :=
    (List.perm_insertionSort createdGE _).mem_iff.mpr hx
  have hxb : x.created_time ≤ b.created_time := by
    rw [hbt] at hxsorted
    rcases List.mem_cons.mp hxsorted with hxe | hxt
    · rw [hxe]
    · have hsorted := List.sorted_insertionSort createdGE (collapse none
        (List.insertionSort wle (data.filter (validFilterB t0 t1
          (pyOrQ margin0 (T_ORBIT + 60)) (pyOrQ margin1 300)))))
      rw [hbt] at hsorted
      exact List.rel_of_sorted_cons hsorted x hxt
  exact le_trans hsx hxb

theorem last_valid_orbit_error_iff {t0 t1 : ℚ} {data : List SentinelOrbit}
    {margin0 margin1 : Option ℚ} :
    (∃ e, last_valid_orbit t0 t1 data margin0 margin1 = Except.error e) ↔
      ∀ r ∈ data, ¬ (validFilterB t0 t1 (pyOrQ margin0 (T_ORBIT + 60))
        (pyOrQ margin1 300) r = true) := by
  constructor
  · intro ⟨e, he⟩ r hr hf
    obtain ⟨best, _, hlast, _, _⟩ := last_valid_orbit_ok_shape ⟨r, hr, hf⟩
    rw [hlast] at he
    exact absurd he (by simp)
  · intro hall
    have hnil : data.filter (validFilterB t0 t1 (pyOrQ margin0 (T_ORBIT + 60))
        (pyOrQ margin1 300)) = [] := by
      apply List.eq_nil_iff_forall_not_mem.mpr
      intro r hrf
      have := List.mem_filter.mp hrf
      exact hall r this.1 this.2
    refine ⟨"none of the input products completely covers the requested time interval", ?_⟩
    simp only [last_valid_orbit, valid_orbits_eq_error (by simpa using hnil : List.filter
      (validFilterB t0 t1 ((some (pyOrQ margin0 (T_ORBIT + 60))).getD (T_ORBIT + 60))
        ((some (pyOrQ margin1 300)).getD 300)) data = [])]

theorem onePass_eq (catalog : List SentinelOrbit) (base : String) (m0 : ℚ) :
    ∀ (reqs : List (ℚ × String)), (∀ rq ∈ reqs, rq.2 = "S1A" ∨ rq.2 = "S1B") →
      onePass catalog base m0 reqs =
        Except.ok (passUrls catalog base m0 reqs, passFailed catalog m0 reqs) := by
  intro reqs
  induction reqs with
  | nil => intro _; rfl
  | cons rq rest ih =>
    intro hv
    obtain ⟨dt, mission⟩ := rq
    have hm : mission = "S1A" ∨ mission = "S1B" := hv (dt, mission) (by simp)
    simp only [onePass, missionLookup, if_pos hm]
    rw [ih (fun r hr => hv r (List.mem_cons_of_mem _ hr))]
    have hrdef : resolveOne catalog m0 (dt, mission) =
        last_valid_orbit dt dt (catalog.filter (fun e => decide (e.mission = mission)))
          (some m0) none := rfl
    cases hres : last_valid_orbit dt dt
        (catalog.filter (fun e => decide (e.mission = mission))) (some m0) none with
    | ok f =>
      simp [passUrls, passFailed, List.filterMap_cons, List.filter_cons, hrdef, hres]
    | error e =>
      simp [passUrls, passFailed, List.filterMap_cons, List.filter_cons, hrdef, hres]

theorem passFailed_subset {catalog : List SentinelOrbit} {m0 : ℚ}
    {reqs : List (ℚ × String)} {rq : ℚ × String}
    (h : rq ∈ passFailed catalog m0 reqs) : rq ∈ reqs :=
  List.mem_of_mem_filter h

theorem get_download_urls_res_eq (catalogs : OrbitType → List SentinelOrbit)
    (reqs : List (ℚ × String)) (hreq : reqs ≠ [])
    (hv : ∀ rq ∈ reqs, rq.2 = "S1A" ∨ rq.2 = "S1B") :
    get_download_urls catalogs reqs OrbitType.restituted =
      Except.ok (passUrls (catalogs OrbitType.restituted) (urlOf OrbitType.restituted)
        (margin0Of OrbitType.restituted) reqs) := by
  rw [get_download_urls]
  rw [if_neg (by simpa [List.isEmpty_iff] using hreq)]
  rw [onePass_eq _ _ _ reqs hv]
  by_cases hrem : (passFailed (catalogs OrbitType.restituted)
      (margin0Of OrbitType.restituted) reqs).isEmpty
  · simp [hrem]
  · simp [hrem]

theorem get_download_urls_pre_eq (catalogs : OrbitType → List SentinelOrbit)
    (reqs : List (ℚ × String)) (hreq : reqs ≠ [])
    (hv : ∀ rq ∈ reqs, rq.2 = "S1A" ∨ rq.2 = "S1B") :
    get_download_urls catalogs reqs OrbitType.precise =
      Except.ok (passUrls (catalogs OrbitType.precise) (urlOf OrbitType.precise)
          (margin0Of OrbitType.precise) reqs ++
        passUrls (catalogs OrbitType.restituted) (urlOf OrbitType.restituted)
          (margin0Of OrbitType.restituted)
          (passFailed (catalogs OrbitType.precise) (margin0Of OrbitType.precise) reqs)) := by
  rw [get_download_urls]
  rw [if_neg (by simpa [List.isEmpty_iff] using hreq)]
  rw [onePass_eq _ _ _ reqs hv]
  by_cases hrem : (passFailed (catalogs OrbitType.precise)
      (margin0Of OrbitType.precise) reqs).isEmpty
  · have hnil : passFailed (catalogs OrbitType.precise)
        (margin0Of OrbitType.precise) reqs = [] := List.isEmpty_iff.mp hrem
    simp [hrem, hnil, passUrls]
  · have hrne : passFailed (catalogs OrbitType.precise)
        (margin0Of OrbitType.precise) reqs ≠ [] := by
      intro hnil
      rw [hnil] at hrem
      exact hrem (by rfl)
    have hv2 : ∀ rq ∈ passFailed (catalogs OrbitType.precise)
        (margin0Of OrbitType.precise) reqs, rq.2 = "S1A" ∨ rq.2 = "S1B" :=
      fun rq hrq => hv rq (passFailed_subset hrq)
    simp [hrem, get_download_urls_res_eq catalogs _ hrne hv2]

/-- Claim C3: whenever at least one record passes the coverage filter
(with the margins `last_valid_orbit` effectively uses), `last_valid_orbit`
(select_best) returns the filename of a passing record whose
`created_time` is maximal among all passing records — freshness wins,
regardless of window tightness. -/
theorem claim_C3_freshness (t0 t1 : ℚ) (data : List SentinelOrbit)
    (margin0 margin1 : Option ℚ)
    (h : ∃ r ∈ data, validFilterB t0 t1 (pyOrQ margin0 (T_ORBIT + 60))
      (pyOrQ margin1 300) r = true) :
    ∃ best ∈ data,
      last_valid_orbit t0 t1 data margin0 margin1 = Except.ok best.filename ∧
      validFilterB t0 t1 (pyOrQ margin0 (T_ORBIT + 60)) (pyOrQ margin1 300) best = true ∧
      ∀ s ∈ data, validFilterB t0 t1 (pyOrQ margin0 (T_ORBIT + 60))
        (pyOrQ margin1 300) s = true → s.created_time ≤ best.created_time :=
  last_valid_orbit_ok_shape h

/-- Witness for C3: a fresher record with a looser window beats a
tighter, older one. -/
theorem claim_C3_freshness_witness :
    (∃ r ∈ ([⟨"TIGHT", "S1A", -7000, 1000, 5⟩, ⟨"FRESH", "S1A", -9000, 2000, 9⟩] :
        List SentinelOrbit),
      validFilterB 0 0 (pyOrQ (some 6000) (T_ORBIT + 60)) (pyOrQ (some 300) 300) r = true) ∧
    (∃ best ∈ ([⟨"TIGHT", "S1A", -7000, 1000, 5⟩, ⟨"FRESH", "S1A", -9000, 2000, 9⟩] :
        List SentinelOrbit),
      last_valid_orbit 0 0 [⟨"TIGHT", "S1A", -7000, 1000, 5⟩,
        ⟨"FRESH", "S1A", -9000, 2000, 9⟩] (some 6000) (some 300) =
        Except.ok best.filename ∧
      validFilterB 0 0 (pyOrQ (some 6000) (T_ORBIT + 60)) (pyOrQ (some 300) 300) best = true ∧
      ∀ s ∈ ([⟨"TIGHT", "S1A", -7000, 1000, 5⟩, ⟨"FRESH", "S1A", -9000, 2000, 9⟩] :
          List SentinelOrbit),
        validFilterB 0 0 (pyOrQ (some 6000) (T_ORBIT + 60)) (pyOrQ (some 300) 300) s = true →
          s.created_time ≤ best.created_time) :=
  have hh : ∃ r ∈ ([⟨"TIGHT", "S1A", -7000, 1000, 5⟩, ⟨"FRESH", "S1A", -9000, 2000, 9⟩] :
      List SentinelOrbit),
      validFilterB 0 0 (pyOrQ (some 6000) (T_ORBIT + 60)) (pyOrQ (some 300) 300) r = true :=
    ⟨⟨"TIGHT", "S1A", -7000, 1000, 5⟩, by simp, by norm_num [pyOrQ, validFilterB]⟩
  ⟨hh, claim_C3_freshness 0 0 [⟨"TIGHT", "S1A", -7000, 1000, 5⟩,
    ⟨"FRESH", "S1A", -9000, 2000, 9⟩] (some 6000) (some 300) hh⟩

/-- Claim C4: a precise batch resolves what it can in request order,
retries exactly the coverage-failed requests once against the
restituted catalog, and a restituted batch performs no further
fallback; coverage failures never make the batch call raise. -/
theorem claim_C4_fallback (catalogs : OrbitType → List SentinelOrbit)
    (reqs : List (ℚ × String)) (hreq : reqs ≠ [])
    (hv : ∀ rq ∈ reqs, rq.2 = "S1A" ∨ rq.2 = "S1B") :
    get_download_urls catalogs reqs OrbitType.precise =
      Except.ok (passUrls (catalogs OrbitType.precise) (urlOf OrbitType.precise)
          (margin0Of OrbitType.precise) reqs ++
        passUrls (catalogs OrbitType.restituted) (urlOf OrbitType.restituted)
          (margin0Of OrbitType.restituted)
          (passFailed (catalogs OrbitType.precise) (margin0Of OrbitType.precise) reqs)) ∧
    get_download_urls catalogs reqs OrbitType.restituted =
      Except.ok (passUrls (catalogs OrbitType.restituted) (urlOf OrbitType.restituted)
        (margin0Of OrbitType.restituted) reqs) :=
  ⟨get_download_urls_pre_eq catalogs reqs hreq hv,
    get_download_urls_res_eq catalogs reqs hreq hv⟩

/-- Witness for C4: of two requests, the first is resolved by the
precise catalog and kept, the second falls back to restituted. -/
theorem claim_C4_fallback_witness :
    get_download_urls
      (fun t => if t = OrbitType.precise then [⟨"P", "S1A", -6000, 1300, 1⟩]
        else [⟨"R", "S1A", 0, 10000, 2⟩])
      [(1000, "S1A"), (2000, "S1A")] OrbitType.precise =
      Except.ok ["https://s1qc.asf.alaska.edu/aux_poeorb/P",
        "https://s1qc.asf.alaska.edu/aux_resorb/R"] := by
  have h := (claim_C4_fallback
    (fun t => if t = OrbitType.precise then [⟨"P", "S1A", -6000, 1300, 1⟩]
      else [⟨"R", "S1A", 0, 10000, 2⟩])
    [(1000, "S1A"), (2000, "S1A")] (by simp) (by simp)).1
  rw [h]
  norm_num [passUrls, passFailed, resolveOne, last_valid_orbit, valid_orbits, pyOrQ,
    validFilterB, margin0Of, Client_T0, Client_T1, T_ORBIT, urlOf, List.filter,
    List.filterMap, List.insertionSort, List.orderedInsert, collapse, wle, sameWindow,
    createdGE]
  exact ⟨rfl, rfl⟩

/-- Claim C5: `valid_orbits` and `last_valid_orbit` raise `ValidityError`
exactly when no catalog record passes the coverage filter with the
margins they effectively use, and during batch resolution this error is
absorbed per request — the batch call returns normally. -/
theorem claim_C5_raises_iff (t0 t1 : ℚ) (data : List SentinelOrbit)
    (margin0 margin1 : Option ℚ) (catalogs : OrbitType → List SentinelOrbit)
    (reqs : List (ℚ × String)) (hreq : reqs ≠ [])
    (hv : ∀ rq ∈ reqs, rq.2 = "S1A" ∨ rq.2 = "S1B") :
    ((∃ e, valid_orbits t0 t1 data margin0 margin1 = Except.error e) ↔
      ∀ r ∈ data, ¬ (validFilterB t0 t1 (margin0.getD (T_ORBIT + 60))
        (margin1.getD 300) r = true)) ∧
    ((∃ e, last_valid_orbit t0 t1 data margin0 margin1 = Except.error e) ↔
      ∀ r ∈ data, ¬ (validFilterB t0 t1 (pyOrQ margin0 (T_ORBIT + 60))
        (pyOrQ margin1 300) r = true)) ∧
    (∃ urls, get_download_urls catalogs reqs OrbitType.precise = Except.ok urls) ∧
    (∃ urls, get_download_urls catalogs reqs OrbitType.restituted = Except.ok urls) :=
  ⟨valid_orbits_error_iff, last_valid_orbit_error_iff,
    ⟨_, get_download_urls_pre_eq catalogs reqs hreq hv⟩,
    ⟨_, get_download_urls_res_eq catalogs reqs hreq hv⟩⟩

/-- Witness for C5: on an empty catalog the selector raises, and the
batch call still returns normally. -/
theorem claim_C5_raises_iff_witness :
    (∃ e, valid_orbits 0 0 [] none none = Except.error e) ∧
    (∃ urls, get_download_urls (fun _ => []) [(0, "S1A")] OrbitType.precise =
      Except.ok urls) :=
  have h := claim_C5_raises_iff 0 0 [] none none (fun _ => []) [(0, "S1A")]
    (by simp) (by simp)
  ⟨h.1.mpr (by simp), h.2.2.1⟩

/-- Counterexample to C9: a record that covers the target instant with
the explicitly supplied zero margins is nevertheless rejected —
`last_valid_orbit` replaces a zero timedelta by the default margins
(Python `or` truthiness) and raises. -/
theorem claim_C9_counterexample :
    ((⟨"F", "S1A", 100, 100, 0⟩ : SentinelOrbit).start_time ≤ 100 - 0 ∧
      (⟨"F", "S1A", 100, 100, 0⟩ : SentinelOrbit).stop_time ≥ 100 + 0) ∧
    (∃ e, last_valid_orbit 100 100 [⟨"F", "S1A", 100, 100, 0⟩] (some 0) (some 0) =
      Except.error e) := by
  constructor
  · norm_num
  · apply last_valid_orbit_error_iff.mpr
    norm_num [pyOrQ, validFilterB, T_ORBIT]

/-- Claim C9 (amended): for every explicitly supplied pair of nonzero
margins, `last_valid_orbit` (select_best) filters candidates using
exactly the supplied margins: it raises iff no record passes that
filter, and any returned filename names a passing record.  A supplied
zero timedelta, however, is replaced by the default margin. -/
theorem claim_C9_amended (t0 t1 : ℚ) (data : List SentinelOrbit) (m0 m1 : ℚ)
    (hm0 : m0 ≠ 0) (hm1 : m1 ≠ 0) :
    ((∃ e, last_valid_orbit t0 t1 data (some m0) (some m1) = Except.error e) ↔
      ∀ r ∈ data, ¬ (validFilterB t0 t1 m0 m1 r = true)) ∧
    (∀ f, last_valid_orbit t0 t1 data (some m0) (some m1) = Except.ok f →
      ∃ r ∈ data, validFilterB t0 t1 m0 m1 r = true ∧ r.filename = f) := by
  have h0 : pyOrQ (some m0) (T_ORBIT + 60) = m0 := by simp [pyOrQ, hm0]
  have h1 : pyOrQ (some m1) 300 = m1 := by simp [pyOrQ, hm1]
  constructor
  · have h := @last_valid_orbit_error_iff t0 t1 data (some m0) (some m1)
    rw [h0, h1] at h
    exact h
  · intro f hf
    by_cases hex : ∃ r ∈ data, validFilterB t0 t1 m0 m1 r = true
    · obtain ⟨best, hbd, hlast, hbf, _⟩ := @last_valid_orbit_ok_shape t0 t1 data
        (some m0) (some m1) (by rw [h0, h1]; exact hex)
      rw [hlast] at hf
      rw [h0, h1] at hbf
      exact ⟨best, hbd, hbf, Except.ok.inj hf⟩
    · push_neg at hex
      obtain ⟨e, he⟩ := last_valid_orbit_error_iff.mpr (by rw [h0, h1]; exact hex)
      rw [he] at hf
      exact absurd hf (by simp)

/-- Witness for C9 (amended) at concrete nonzero margins. -/
theorem claim_C9_amended_witness :
    ∃ r ∈ ([⟨"A", "S1A", -7000, 1000, 5⟩] : List SentinelOrbit),
      validFilterB 0 0 6000 300 r = true ∧ r.filename = "A" := by
  apply (claim_C9_amended 0 0 [⟨"A", "S1A", -7000, 1000, 5⟩] 6000 300
    (by norm_num) (by norm_num)).2 "A"
  norm_num [last_valid_orbit, valid_orbits, pyOrQ, validFilterB, List.filter,
    List.insertionSort, List.orderedInsert, collapse, createdGE, wle, sameWindow]

/-- Counterexample to C6: a restituted record satisfying the claimed
60 s / 60 s margins (its `stop_time` is exactly 60 s past the target)
is not selected by the batch path — no URL is returned — because the
code leaves `margin1` unset and `last_valid_orbit` defaults it to
300 s, which the record misses. -/
theorem claim_C6_counterexample :
    validFilterB 10000 10000 Client_T1 Client_T1 ⟨"RESFILE", "S1A", 9000, 10060, 5⟩ = true ∧
    validFilterB 10000 10000 Client_T1 300 ⟨"RESFILE", "S1A", 9000, 10060, 5⟩ = false ∧
    get_download_urls (fun _ => [⟨"RESFILE", "S1A", 9000, 10060, 5⟩]) [(10000, "S1A")]
      OrbitType.restituted = Except.ok [] := by
  refine ⟨by norm_num [validFilterB, Client_T1], by norm_num [validFilterB, Client_T1], ?_⟩
  rw [get_download_urls_res_eq _ _ (by simp) (by simp)]
  norm_num [passUrls, resolveOne, last_valid_orbit, valid_orbits, pyOrQ, validFilterB,
    margin0Of, Client_T1, List.filter, List.filterMap, List.insertionSort,
    List.orderedInsert, collapse]

/-- Claim C6 (amended): in the batch path the selection for a request at
time `dt` uses margin_before = `T_ORBIT + 60` seconds for precise orbits
and 60 seconds for restituted ones, while margin_after is 300 seconds
for both orbit types (not 60 s for restituted): the per-request
selection raises exactly when no mission record covers with those
margins. -/
theorem claim_C6_amended (otype : OrbitType) (catalog : List SentinelOrbit) (dt : ℚ) :
    margin0Of OrbitType.precise = T_ORBIT + 60 ∧
    margin0Of OrbitType.restituted = 60 ∧
    ((∃ e, resolveOne catalog (margin0Of otype) (dt, "S1A") = Except.error e) ↔
      ∀ r ∈ catalog.filter (fun e => decide (e.mission = "S1A")),
        ¬ (validFilterB dt dt (margin0Of otype) 300 r = true)) := by
  refine ⟨rfl, rfl, ?_⟩
  have h0 : pyOrQ (some (margin0Of otype)) (T_ORBIT + 60) = margin0Of otype := by
    cases otype <;> norm_num [pyOrQ, margin0Of, Client_T0, Client_T1, T_ORBIT]
  have h1 : pyOrQ (none : Option ℚ) 300 = 300 := rfl
  have h := @last_valid_orbit_error_iff dt dt
    (catalog.filter (fun e => decide (e.mission = "S1A")))
    (some (margin0Of otype)) none
  rw [h0, h1] at h
  exact h

/-- Claim C8: with no in-memory memo, a non-empty cached listing and a
requested time `d`, `get_full_eof_list` returns the freshly fetched
catalog exactly when the newest cached `start_time` predates `d`
(`needs_refresh`), and otherwise returns the cached listing unchanged —
never a partial update. -/
theorem claim_C8_refresh (l fetched : List SentinelOrbit) (d : ℚ) (hl : l ≠ []) :
    get_full_eof_list none (some l) fetched (some d) =
      Except.ok (if needs_refresh (maxStart l) (some d) then fetched else l) ∧
    (needs_refresh (maxStart l) (some d) = true ↔ maxStart l < d) := by
  constructor
  · simp only [get_full_eof_list]
    rw [if_neg (by simpa [List.isEmpty_iff] using hl)]
    by_cases h : needs_refresh (maxStart l) (some d)
    · rw [if_pos h, if_pos h]
    · rw [if_neg h, if_neg h]
  · simp [needs_refresh]

/-- Witness for C8: a cached listing newer than the requested time is
returned unchanged. -/
theorem claim_C8_refresh_witness :
    get_full_eof_list none (some [⟨"O", "S1A", 100, 200, 0⟩]) [] (some 50) =
      Except.ok [⟨"O", "S1A", 100, 200, 0⟩] := by
  rw [(claim_C8_refresh [⟨"O", "S1A", 100, 200, 0⟩] [] 50 (by simp)).1]
  norm_num [needs_refresh, maxStart]

/-- Claim C10: parsing the given product filename succeeds with
mission S1A, start 2018-04-08T04:30:25, stop 2018-04-08T04:30:53 and
relative orbit 124, and `Sentinel.relative_orbit` is the
mission-specific modular formula. -/
theorem claim_C10_parse_scenario :
    ((Sentinel_full_parse
        "S1A_IW_SLC__1SDV_20180408T043025_20180408T043053_021371_024C9B_1B70").map
      SentinelParts.mission = some "S1A") ∧
    ((Sentinel_full_parse
        "S1A_IW_SLC__1SDV_20180408T043025_20180408T043053_021371_024C9B_1B70").bind
      Sentinel_start_time = some ⟨2018, 4, 8, 4, 30, 25⟩) ∧
    ((Sentinel_full_parse
        "S1A_IW_SLC__1SDV_20180408T043025_20180408T043053_021371_024C9B_1B70").bind
      Sentinel_stop_time = some ⟨2018, 4, 8, 4, 30, 53⟩) ∧
    ((Sentinel_full_parse
        "S1A_IW_SLC__1SDV_20180408T043025_20180408T043053_021371_024C9B_1B70").bind
      Sentinel_relative_orbit = some 124) ∧
    (∀ p : SentinelParts, p.mission = "S1A" →
      Sentinel_relative_orbit p =
        (Sentinel_absolute_orbit p).map (fun a => (a - 73) % 175 + 1)) ∧
    (∀ p : SentinelParts, p.mission = "S1B" →
      Sentinel_relative_orbit p =
        (Sentinel_absolute_orbit p).map (fun a => (a - 27) % 175 + 1)) := by
  refine ⟨by decide, by decide, by decide, by decide, ?_, ?_⟩
  · intro p hp
    simp [Sentinel_relative_orbit, hp]
  · intro p hp
    simp [Sentinel_relative_orbit, hp]
